import Mathlib

/-!
Verification of the dual-mode data synchronization layer of the
markdown-note-master application (src/hooks/use-data-sync.ts and the
collection operations in src/components/TodoApp.tsx).

Modelling conventions:
* Epoch-millisecond timestamps are `Nat`.  The source converts between
  epoch millis and ISO strings (`new Date(n).toISOString()` /
  `new Date(iso).getTime()`); this conversion is a lossless bijection on
  the values the app produces, so rows store the timestamp directly.
* `localStorage` is modelled as an optional stored string plus an
  explicit (de)serialization function; the remote (Supabase) store is a
  list of rows, one list per table.
* Remote calls that can fail are driven by an explicit failure schedule
  (`fails : Nat → Bool` says whether the k-th network call errors), so
  the error paths of the source are ordinary case splits.
-/

/-- An attachment as in src/lib/types.ts. -/
structure Attachment where
  id : String
  name : String
  size : Nat
  type : String
  data : String
  uploadedAt : Nat
deriving DecidableEq, Repr

/-- A note as in src/lib/types.ts (`deletedAt?` and `attachments?` are
optional in TypeScript; an absent `attachments` reads as `[]`). -/
structure Note where
  id : String
  title : String
  content : String
  createdAt : Nat
  updatedAt : Nat
  deletedAt : Option Nat
  attachments : List Attachment
deriving DecidableEq, Repr

/-- A todo as in src/lib/types.ts. -/
structure Todo where
  id : String
  title : String
  completed : Bool
  createdAt : Nat
  updatedAt : Nat
  linkedNoteIds : List String
  deletedAt : Option Nat
  groupIds : List String
  tags : List String
deriving DecidableEq, Repr

/-- A todo group as in src/lib/types.ts. -/
structure TodoGroup where
  id : String
  name : String
  color : String
  createdAt : Nat
  isDefault : Bool
deriving DecidableEq, Repr

/-- A workflow as in src/lib/types.ts; `data` is an opaque serializable
blob the sync layer never interprets, modelled as an optional string. -/
structure Workflow where
  id : String
  name : String
  data : Option String
  createdAt : Nat
  updatedAt : Nat
  deletedAt : Option Nat
deriving DecidableEq, Repr

/-- A row of the Supabase `notes` table, as read and written by
use-data-sync.ts. -/
structure NoteRow where
  id : String
  user_id : String
  title : String
  content : String
  created_at : Nat
  updated_at : Nat
  deleted_at : Option Nat
deriving DecidableEq, Repr

/-- A row of the Supabase `todos` table. -/
structure TodoRow where
  id : String
  user_id : String
  title : String
  completed : Bool
  created_at : Nat
  updated_at : Nat
  deleted_at : Option Nat
  group_ids : List String
  tags : List String
deriving DecidableEq, Repr

/-- A row of the Supabase `workflows` table. -/
structure WorkflowRow where
  id : String
  user_id : String
  name : String
  data : Option String
  created_at : Nat
  updated_at : Nat
  deleted_at : Option Nat
deriving DecidableEq, Repr

/-- The upsert payload built for one note in `setNotes`
(use-data-sync.ts lines 351-361): every field of the note except
`attachments`, plus the owner's user id. -/
def noteUpsertPayload (userId : String) (note : Note) : NoteRow :=
  { id := note.id
    user_id := userId
    title := note.title
    content := note.content
    created_at := note.createdAt
    updated_at := note.updatedAt
    deleted_at := note.deletedAt }

/-- The note built from one remote row in `loadRemoteNotes`
(use-data-sync.ts lines 296-304): `attachments` is always set to `[]`. -/
def noteOfRow (row : NoteRow) : Note :=
  { id := row.id
    title := row.title
    content := row.content
    createdAt := row.created_at
    updatedAt := row.updated_at
    deletedAt := row.deleted_at
    attachments := [] }

/-- The upsert payload built for one todo in `setTodos`
(use-data-sync.ts lines 484-496): every field except `linkedNoteIds`. -/
def todoUpsertPayload (userId : String) (todo : Todo) : TodoRow :=
  { id := todo.id
    user_id := userId
    title := todo.title
    completed := todo.completed
    created_at := todo.createdAt
    updated_at := todo.updatedAt
    deleted_at := todo.deletedAt
    group_ids := todo.groupIds
    tags := todo.tags }

/-- The todo built from one remote row in `loadRemoteTodos`
(use-data-sync.ts lines 427-439): `linkedNoteIds` is always `[]`. -/
def todoOfRow (row : TodoRow) : Todo :=
  { id := row.id
    title := row.title
    completed := row.completed
    createdAt := row.created_at
    updatedAt := row.updated_at
    linkedNoteIds := []
    deletedAt := row.deleted_at
    groupIds := row.group_ids
    tags := row.tags }

/-- The upsert payload for one workflow in `setWorkflows`
(use-data-sync.ts lines 768-778). -/
def workflowUpsertPayload (userId : String) (w : Workflow) : WorkflowRow :=
  { id := w.id
    user_id := userId
    name := w.name
    data := w.data
    created_at := w.createdAt
    updated_at := w.updatedAt
    deleted_at := w.deletedAt }

/-- The workflow built from one remote row in `loadRemoteWorkflows`
(use-data-sync.ts lines 692-701). -/
def workflowOfRow (row : WorkflowRow) : Workflow :=
  { id := row.id
    name := row.name
    data := row.data
    createdAt := row.created_at
    updatedAt := row.updated_at
    deletedAt := row.deleted_at }

/-- Supabase `upsert` keyed on the primary key `id`: replace the
matching row if one exists, otherwise insert. -/
def upsertBy {ρ : Type} (idOf : ρ → String) (store : List ρ) (row : ρ) :
    List ρ :=
  if store.any (fun r => idOf r == idOf row) then
    store.map (fun r => if idOf r == idOf row then row else r)
  else
    store ++ [row]

/-- Insert a row into a list kept sorted by `updatedOf`, largest first. -/
def insertDesc {ρ : Type} (updatedOf : ρ → Nat) (r : ρ) :
    List ρ → List ρ
  | [] => [r]
  | x :: xs =>
    if updatedOf x ≤ updatedOf r then r :: x :: xs
    else x :: insertDesc updatedOf r xs

/-- The query `.order('updated_at', \x7b ascending: false \x7d)` used by the
bulk loaders: rows sorted by `updated_at`, newest first (insertion sort;
any descending sort models the server's ordering equally well, and ties
are broken in an order the server does not specify). -/
def sortByUpdatedDesc {ρ : Type} (updatedOf : ρ → Nat) (rows : List ρ) :
    List ρ :=
  rows.foldr (insertDesc updatedOf) []

/-- `loadRemoteNotes` (use-data-sync.ts lines 285-313): select all rows
of the authenticated owner, newest `updated_at` first, and convert each
row to a `Note` (with empty `attachments`). -/
def loadRemoteNotes (userId : String) (store : List NoteRow) : List Note :=
  (sortByUpdatedDesc NoteRow.updated_at
      (store.filter (fun r => r.user_id == userId))).map noteOfRow

/-- `loadRemoteTodos` (use-data-sync.ts lines 416-448). -/
def loadRemoteTodos (userId : String) (store : List TodoRow) : List Todo :=
  (sortByUpdatedDesc TodoRow.updated_at
      (store.filter (fun r => r.user_id == userId))).map todoOfRow

/-- `loadRemoteWorkflows` (use-data-sync.ts lines 680-711): unlike the
other loaders it also filters `.is('deleted_at', null)`. -/
def loadRemoteWorkflows (userId : String) (store : List WorkflowRow) :
    List Workflow :=
  (sortByUpdatedDesc WorkflowRow.updated_at
      (store.filter
        (fun r => r.user_id == userId && r.deleted_at == none))).map
    workflowOfRow

/-- `loadLocalNotes` (use-data-sync.ts lines 272-282): an absent key
yields `[]`; a stored string is parsed, and a parse failure is caught,
logged and replaced by `[]`.  The whole body is wrapped in try/catch, so
the function never throws to its caller (totality of this definition). -/
def loadLocalNotes (stored : Option String)
    (parseNotes : String → Except String (List Note)) : List Note :=
  match stored with
  | none => []
  | some s =>
    match parseNotes s with
    | Except.ok v => v
    | Except.error _ => []

/-- `loadLocalTodos` (use-data-sync.ts lines 403-413), same shape as
`loadLocalNotes`. -/
def loadLocalTodos (stored : Option String)
    (parseTodos : String → Except String (List Todo)) : List Todo :=
  match stored with
  | none => []
  | some s =>
    match parseTodos s with
    | Except.ok v => v
    | Except.error _ => []

/-- `deleteTodo` in TodoApp.tsx (lines 1250-1262): the updater passed to
`setTodos` marks the matching todo soft-deleted by setting
`deletedAt := now`.  No other field is touched. -/
def deleteTodoUpdater (id : String) (now : Nat) (current : List Todo) :
    List Todo :=
  current.map (fun todo =>
    if todo.id == id then { todo with deletedAt := some now } else todo)

/-- `restoreTodo` in TodoApp.tsx (lines 1264-1271): the updater clears
`deletedAt` on the matching todo.  No other field is touched. -/
def restoreTodoUpdater (id : String) (current : List Todo) : List Todo :=
  current.map (fun todo =>
    if todo.id == id then { todo with deletedAt := none } else todo)

/-- `removeGroupFromTodo` in TodoApp.tsx (lines 1374-1377): strip one
group id from a todo's `groupIds`. -/
def removeGroupFromTodo (todo : Todo) (groupId : String) : Todo :=
  { todo with groupIds := todo.groupIds.filter (fun id => id != groupId) }

/-- The groups updater of `deleteGroup` in TodoApp.tsx (line 1433):
remove the group from the groups collection. -/
def deleteGroupGroupsUpdater (groupId : String)
    (current : List TodoGroup) : List TodoGroup :=
  current.filter (fun g => g.id != groupId)

/-- The todos updater of `deleteGroup` in TodoApp.tsx (lines 1434-1436):
strip the deleted group id from every todo. -/
def deleteGroupTodosUpdater (groupId : String) (current : List Todo) :
    List Todo :=
  current.map (fun todo => removeGroupFromTodo todo groupId)

/-- One pass of the per-record upsert loop in `setNotes` / `setTodos` /
`setWorkflows`: `fails k` says whether the k-th upsert call returns an
error.  Returns the store after the loop, the number of upsert calls
issued, and whether the loop finished without error (`throw error`
aborts the loop at the first failing call; a failing call writes
nothing). -/
def upsertLoop {ρ : Type} (idOf : ρ → String) (fails : Nat → Bool)
    (k : Nat) (store : List ρ) (payloads : List ρ) :
    List ρ × Nat × Bool :=
  match payloads with
  | [] => (store, 0, true)
  | p :: rest =>
    if fails k then
      (store, 1, false)
    else
      let next := upsertLoop idOf fails (k + 1) (upsertBy idOf store p) rest
      (next.1, next.2.1 + 1, next.2.2)

/-- Result of one `setNotes` call in remote mode: the new in-memory
collection, the remote table afterwards, how many upserts were issued,
whether persistence succeeded, whether a failure toast was shown, and
whether the returned promise resolved (rather than rejected). -/
structure MutateOutcome (α ρ : Type) where
  memory : List α
  store : List ρ
  sent : Nat
  saveOk : Bool
  toastError : Bool
  promiseResolved : Bool
deriving Repr

/-- `setNotes` in remote mode (use-data-sync.ts lines 328-372).  The
updater is applied to `closureNotes`, the `notes` value captured by
`useCallback` at the last render (line 334 `notesOrUpdater(notes)`), the
in-memory state is replaced immediately, and every record of the new
collection is upserted in order.  The surrounding try/catch logs the
error and shows a toast but does not rethrow, so the async function
always returns normally: the promise resolves in every case. -/
def setNotesRemote (fails : Nat → Bool) (userId : String)
    (store : List NoteRow) (closureNotes : List Note)
    (updater : List Note → List Note) : MutateOutcome Note NoteRow :=
  let nextNotes := updater closureNotes
  let loop :=
    upsertLoop NoteRow.id fails 0 store
      (nextNotes.map (noteUpsertPayload userId))
  { memory := nextNotes
    store := loop.1
    sent := loop.2.1
    saveOk := loop.2.2
    toastError := !loop.2.2
    promiseResolved := true }

/-- `setTodos` in remote mode (use-data-sync.ts lines 463-507), same
shape as `setNotesRemote`. -/
def setTodosRemote (fails : Nat → Bool) (userId : String)
    (store : List TodoRow) (closureTodos : List Todo)
    (updater : List Todo → List Todo) : MutateOutcome Todo TodoRow :=
  let nextTodos := updater closureTodos
  let loop :=
    upsertLoop TodoRow.id fails 0 store
      (nextTodos.map (todoUpsertPayload userId))
  { memory := nextTodos
    store := loop.1
    sent := loop.2.1
    saveOk := loop.2.2
    toastError := !loop.2.2
    promiseResolved := true }

/-- Result of one `setNotes` call in local mode. -/
structure LocalMutateOutcome (α : Type) where
  memory : List α
  stored : Option String
  toastError : Bool
  promiseResolved : Bool
deriving Repr

/-- `setNotes` in local mode (use-data-sync.ts lines 339-345): the
updater is applied to the render-captured `notes`, the in-memory state
is replaced, and the serialized collection is written to
`localStorage`.  A write failure (`quotaFails`) is caught, logged and
toasted; in-memory state keeps the new value and the promise resolves
either way. -/
def setNotesLocal (quotaFails : Bool)
    (serializeNotes : List Note → String) (stored : Option String)
    (closureNotes : List Note) (updater : List Note → List Note) :
    LocalMutateOutcome Note :=
  let nextNotes := updater closureNotes
  { memory := nextNotes
    stored := if quotaFails then stored else some (serializeNotes nextNotes)
    toastError := quotaFails
    promiseResolved := true }

/-- `setTodos` in local mode (use-data-sync.ts lines 474-480). -/
def setTodosLocal (quotaFails : Bool)
    (serializeTodos : List Todo → String) (stored : Option String)
    (closureTodos : List Todo) (updater : List Todo → List Todo) :
    LocalMutateOutcome Todo :=
  let nextTodos := updater closureTodos
  { memory := nextTodos
    stored := if quotaFails then stored else some (serializeTodos nextTodos)
    toastError := quotaFails
    promiseResolved := true }

/-- State of the `useNotes` hook: the in-memory collection plus the
`isLoading` and `hasLoaded` flags (use-data-sync.ts lines 265-267).
`useTodos` and `useTodoGroups` have exactly the same load shape. -/
structure NotesHookState where
  notes : List Note
  isLoading : Bool
  hasLoaded : Bool
deriving DecidableEq, Repr

/-- The `useState` initial values of `useNotes`. -/
def initialNotesHookState : NotesHookState :=
  { notes := [], isLoading := true, hasLoaded := false }

/-- One run of the load effect of `useNotes` (use-data-sync.ts lines
316-325), inlining `loadLocalNotes` / `loadRemoteNotes`: it fires on
mount and whenever `user?.id` or `hasLoaded` changes, early-returns when
`hasLoaded` is already set, and otherwise performs the bulk load for the
current mode (`user` present means remote) and sets both flags.  The
local medium is passed already decoded, as the value `loadLocalNotes`
would produce. -/
def notesLoadEffect (user : Option String) (localNotes : List Note)
    (remoteStore : List NoteRow) (s : NotesHookState) : NotesHookState :=
  if s.hasLoaded then s
  else
    match user with
    | none =>
      { notes := localNotes, isLoading := false, hasLoaded := true }
    | some uid =>
      { notes := loadRemoteNotes uid remoteStore
        isLoading := false
        hasLoaded := true }

/-- Which mode the last completed load of `useWorkflows` used
(use-data-sync.ts line 647). -/
inductive LoadedMode where
  | noneYet
  | localMode
  | remoteMode
deriving DecidableEq, Repr

/-- State of the `useWorkflows` hook (use-data-sync.ts lines 644-647). -/
structure WorkflowsHookState where
  workflows : List Workflow
  isLoading : Bool
  hasLoaded : Bool
  loadedMode : LoadedMode
deriving DecidableEq, Repr

/-- The `useState` initial values of `useWorkflows`. -/
def initialWorkflowsHookState : WorkflowsHookState :=
  { workflows := [], isLoading := true, hasLoaded := false,
    loadedMode := LoadedMode.noneYet }

/-- One run of the first load effect of `useWorkflows` (use-data-sync.ts
lines 714-723): same `hasLoaded` guard as the other hooks, and the
loaders additionally record `loadedMode`. -/
def workflowsLoadEffect (user : Option String)
    (localWorkflows : List Workflow) (remoteStore : List WorkflowRow)
    (s : WorkflowsHookState) : WorkflowsHookState :=
  if s.hasLoaded then s
  else
    match user with
    | none =>
      { workflows := localWorkflows, isLoading := false,
        hasLoaded := true, loadedMode := LoadedMode.localMode }
    | some uid =>
      { workflows := loadRemoteWorkflows uid remoteStore
        isLoading := false
        hasLoaded := true
        loadedMode := LoadedMode.remoteMode }

/-- One run of the second effect of `useWorkflows` (use-data-sync.ts
lines 726-730): "If we initially loaded local (before auth resolved),
load remote once user becomes available".  `loadRemoteWorkflows` leaves
`isLoading` untouched at the start and sets it false at the end, so no
loading flag is raised during this hydration. -/
def workflowsHydrateEffect (user : Option String)
    (remoteStore : List WorkflowRow) (s : WorkflowsHookState) :
    WorkflowsHookState :=
  match user with
  | some uid =>
    if s.hasLoaded && (s.loadedMode == LoadedMode.localMode) then
      { workflows := loadRemoteWorkflows uid remoteStore
        isLoading := false
        hasLoaded := true
        loadedMode := LoadedMode.remoteMode }
    else s
  | none => s

/-- The two pieces of `useTodos` state that matter for composing
back-to-back `setTodos` calls: the `useState` cell, and the `todos`
value captured by the `useCallback` closure of the current render
(use-data-sync.ts line 506: the callback lists `todos` as a dependency,
so it reads the value from the last render, not the live cell). -/
structure TodosRenderState where
  state : List Todo
  rendered : List Todo
deriving DecidableEq, Repr

/-- One `setTodos` call (use-data-sync.ts lines 463-507): the updater is
applied to the render-captured `todos` (line 469 `todosOrUpdater(todos)`)
and the result replaces the state cell via `setTodosState(nextTodos)`
(line 472) — a plain replacement, not a functional update. -/
def setTodosCall (h : TodosRenderState)
    (updater : List Todo → List Todo) : TodosRenderState :=
  { h with state := updater h.rendered }

/-- A React re-render: the hook re-runs, `useState` returns the current
cell value, and `useCallback` captures it as the new `todos` closure. -/
def rerenderTodos (h : TodosRenderState) : TodosRenderState :=
  { h with rendered := h.state }

/-- `permanentlyDeleteTodo` in TodoApp.tsx (lines 1273-1299): when a
user is signed in, the remote delete (scoped to id and owner) runs
first; on error the function returns early after a toast, leaving the
in-memory collection untouched.  Only after a successful delete (or with
no user) is the todo filtered out of the in-memory state. -/
def permanentlyDeleteTodo (remoteOk : Bool) (user : Option String)
    (store : List TodoRow) (todos : List Todo) (id : String) :
    (List Todo × List TodoRow × Bool) :=
  match user with
  | some uid =>
    if remoteOk then
      (todos.filter (fun t => t.id != id),
       store.filter (fun r => !(r.id == id && r.user_id == uid)),
       false)
    else
      (todos, store, true)
  | none =>
    (todos.filter (fun t => t.id != id), store, false)

/-- Trace of one `deleteWorkflow` call in remote mode. -/
structure DeleteWorkflowTrace where
  afterOptimistic : List Workflow
  final : List Workflow
  store : List WorkflowRow
  toastError : Bool
deriving DecidableEq, Repr

/-- `deleteWorkflow` in remote mode (use-data-sync.ts lines 792-827):
the in-memory state is updated optimistically FIRST (line 795, before
any network call), then the scoped remote delete runs; on failure the
code toasts and re-runs `loadRemoteWorkflows` to restore state from the
server. -/
def deleteWorkflowRemote (remoteOk : Bool) (uid : String)
    (store : List WorkflowRow) (workflows : List Workflow)
    (id : String) : DeleteWorkflowTrace :=
  let optimistic := workflows.filter (fun w => w.id != id)
  if remoteOk then
    { afterOptimistic := optimistic
      final := optimistic
      store := store.filter (fun r => !(r.id == id && r.user_id == uid))
      toastError := false }
  else
    { afterOptimistic := optimistic
      final := loadRemoteWorkflows uid store
      store := store
      toastError := true }

/-- A concrete attachment used by the concrete-scenario theorems. -/
def sampleAttachment : Attachment :=
  { id := "a1", name := "photo.png", size := 42, type := "image/png",
    data := "iVBORw0", uploadedAt := 900 }

/-- A concrete active todo (spec §8 scenario 7 shape) used by the
concrete-scenario theorems. -/
def sampleTodo : Todo :=
  { id := "t1", title := "Buy milk", completed := false,
    createdAt := 1000, updatedAt := 1000, linkedNoteIds := [],
    deletedAt := none, groupIds := [], tags := [] }

/-- A second concrete todo. -/
def sampleTodo2 : Todo :=
  { id := "t2", title := "Walk dog", completed := false,
    createdAt := 1100, updatedAt := 1100, linkedNoteIds := [],
    deletedAt := none, groupIds := [], tags := [] }

/-- A concrete note carrying one attachment. -/
def sampleNote : Note :=
  { id := "n1", title := "Groceries", content := "milk",
    createdAt := 1000, updatedAt := 2000, deletedAt := none,
    attachments := [sampleAttachment] }

/-- A concrete remote note row belonging to user "u". -/
def sampleNoteRow : NoteRow :=
  { id := "n9", user_id := "u", title := "Remote note",
    content := "from server", created_at := 500, updated_at := 600,
    deleted_at := none }

/-- A concrete workflow. -/
def sampleWorkflow : Workflow :=
  { id := "w1", name := "Release", data := some "graph",
    createdAt := 100, updatedAt := 200, deletedAt := none }

/-- The remote row corresponding to `sampleWorkflow` for user "u". -/
def sampleWorkflowRow : WorkflowRow :=
  { id := "w1", user_id := "u", name := "Release", data := some "graph",
    created_at := 100, updated_at := 200, deleted_at := none }

/-- A second concrete remote workflow row for user "u". -/
def sampleWorkflowRow2 : WorkflowRow :=
  { id := "w2", user_id := "u", name := "Hotfix", data := none,
    created_at := 300, updated_at := 400, deleted_at := none }

theorem mem_upsertBy {ρ : Type} (idOf : ρ → String) (s : List ρ) (r x : ρ) :
    x ∈ upsertBy idOf s r ↔ x = r ∨ (x ∈ s ∧ idOf x ≠ idOf r) := by
  unfold upsertBy
  by_cases h : s.any (fun a => idOf a == idOf r)
  · simp only [h, if_true, List.mem_map]
    constructor
    · rintro ⟨y, hy, hyr⟩
      by_cases hid : idOf y == idOf r
      · left; simp only [hid, if_true] at hyr; exact hyr.symm
      · right
        simp only [hid, if_false] at hyr
        subst hyr
        exact ⟨hy, by simpa using hid⟩
    · rintro (rfl | ⟨hx, hne⟩)
      · rcases List.any_eq_true.mp h with ⟨y, hy, hyr⟩
        exact ⟨y, hy, by simp [hyr]⟩
      · exact ⟨x, hx, by simp [beq_iff_eq, hne]⟩
  · rw [if_neg h]
    simp only [List.mem_append, List.mem_singleton]
    constructor
    · rintro (hx | rfl)
      · right
        refine ⟨hx, fun hid => ?_⟩
        exact h (List.any_eq_true.mpr ⟨x, hx, by simp [hid]⟩)
      · exact Or.inl rfl
    · rintro (rfl | ⟨hx, _⟩)
      · exact Or.inr rfl
      · exact Or.inl hx

theorem mem_foldl_upsertBy {ρ : Type} (idOf : ρ → String) :
    ∀ (rows : List ρ) (s : List ρ) (x : ρ),
      (rows.map idOf).Nodup →
      (x ∈ rows.foldl (upsertBy idOf) s ↔
        x ∈ rows ∨ (x ∈ s ∧ idOf x ∉ rows.map idOf)) := by
  intro rows
  induction rows with
  | nil => intro s x _; simp
  | cons r rest ih =>
    intro s x hnd
    simp only [List.map_cons, List.nodup_cons] at hnd
    obtain ⟨hr, hrest⟩ := hnd
    rw [List.foldl_cons, ih _ x hrest]
    rw [mem_upsertBy]
    constructor
    · rintro (hx | ⟨(rfl | ⟨hx, hne⟩), hnin⟩)
      · exact Or.inl (List.mem_cons_of_mem _ hx)
      · exact Or.inl (List.mem_cons_self _ _)
      · refine Or.inr ⟨hx, ?_⟩
        simp only [List.map_cons, List.mem_cons]
        rintro (h | h)
        · exact hne h
        · exact hnin h
    · rintro (hx | ⟨hx, hnin⟩)
      · rcases List.mem_cons.mp hx with rfl | hx
        · refine Or.inr ⟨Or.inl rfl, ?_⟩
          intro hmem
          exact hr hmem
        · exact Or.inl hx
      · simp only [List.map_cons, List.mem_cons, not_or] at hnin
        exact Or.inr ⟨Or.inr ⟨hx, hnin.1⟩, hnin.2⟩

theorem upsertLoop_ok {ρ : Type} (idOf : ρ → String) (fails : Nat → Bool) :
    ∀ (payloads : List ρ) (k : Nat) (store : List ρ),
      (∀ i, i < payloads.length → fails (k + i) = false) →
      upsertLoop idOf fails k store payloads =
        (payloads.foldl (upsertBy idOf) store, payloads.length, true) := by
  intro payloads
  induction payloads with
  | nil => intro k store _; rfl
  | cons p rest ih =>
    intro k store hok
    have h0 : fails k = false := by simpa using hok 0 (Nat.succ_pos _)
    have hrest : ∀ i, i < rest.length → fails (k + 1 + i) = false := by
      intro i hi
      have := hok (i + 1) (Nat.succ_lt_succ hi)
      simpa [Nat.add_assoc, Nat.add_comm 1 i] using this
    unfold upsertLoop
    simp only [h0, Bool.false_eq_true, if_false]
    rw [ih (k + 1) (upsertBy idOf store p) hrest]
    simp [List.foldl_cons]

theorem upsertLoop_firstFail {ρ : Type} (idOf : ρ → String)
    (fails : Nat → Bool) :
    ∀ (payloads : List ρ) (j k : Nat) (store : List ρ),
      j < payloads.length →
      fails (k + j) = true →
      (∀ i, i < j → fails (k + i) = false) →
      upsertLoop idOf fails k store payloads =
        ((payloads.take j).foldl (upsertBy idOf) store, j + 1, false) := by
  intro payloads
  induction payloads with
  | nil => intro j k store hj; exact absurd hj (Nat.not_lt_zero j)
  | cons p rest ih =>
    intro j k store hj hfail hbefore
    cases j with
    | zero =>
      unfold upsertLoop
      simp only [Nat.add_zero] at hfail
      simp [hfail]
    | succ j =>
      have h0 : fails k = false := by simpa using hbefore 0 (Nat.succ_pos _)
      have hfail' : fails (k + 1 + j) = true := by
        simpa [Nat.add_assoc, Nat.add_comm 1 j] using hfail
      have hbefore' : ∀ i, i < j → fails (k + 1 + i) = false := by
        intro i hi
        have := hbefore (i + 1) (Nat.succ_lt_succ hi)
        simpa [Nat.add_assoc, Nat.add_comm 1 i] using this
      unfold upsertLoop
      simp only [h0, Bool.false_eq_true, if_false]
      rw [ih j (k + 1) (upsertBy idOf store p)
        (Nat.lt_of_succ_lt_succ hj) hfail' hbefore']
      simp [List.foldl_cons]

theorem contains_filter_ne (l : List String) (g : String) :
    (l.filter (fun id => id != g)).contains g = false := by
  induction l with
  | nil => rfl
  | cons a rest ih =>
    by_cases h : a = g
    · subst h
      simp [List.filter_cons, ih]
    · simp [List.filter_cons, h, List.contains_cons, ih,
        Ne.symm h]

theorem mem_insertDesc {ρ : Type} (updatedOf : ρ → Nat) (r x : ρ) :
    ∀ (l : List ρ), x ∈ insertDesc updatedOf r l ↔ x = r ∨ x ∈ l := by
  intro l
  induction l with
  | nil => simp [insertDesc]
  | cons a rest ih =>
    by_cases h : updatedOf a ≤ updatedOf r
    · simp [insertDesc, h]
    · simp only [insertDesc, h, if_false, List.mem_cons, ih]
      tauto

theorem mem_sortByUpdatedDesc {ρ : Type} (updatedOf : ρ → Nat) (x : ρ) :
    ∀ (rows : List ρ), x ∈ sortByUpdatedDesc updatedOf rows ↔ x ∈ rows := by
  intro rows
  induction rows with
  | nil => simp [sortByUpdatedDesc]
  | cons a rest ih =>
    simp only [sortByUpdatedDesc, List.foldr_cons, mem_insertDesc,
      List.mem_cons]
    rw [← sortByUpdatedDesc, ih]

/-- Claim C9: the local load never throws to its caller (both
`loadLocalNotes` and `loadLocalTodos` are total functions): an absent
key yields the empty collection, a stored string whose parse fails is
replaced by the empty collection, and a well-formed stored string yields
its parsed collection. -/
theorem C9_local_load_never_throws :
    (∀ parseNotes, loadLocalNotes none parseNotes = []) ∧
    (∀ parseTodos, loadLocalTodos none parseTodos = []) ∧
    (∀ s e parseNotes, parseNotes s = Except.error e →
      loadLocalNotes (some s) parseNotes = []) ∧
    (∀ s e parseTodos, parseTodos s = Except.error e →
      loadLocalTodos (some s) parseTodos = []) ∧
    (∀ s v parseNotes, parseNotes s = Except.ok v →
      loadLocalNotes (some s) parseNotes = v) ∧
    (∀ s v parseTodos, parseTodos s = Except.ok v →
      loadLocalTodos (some s) parseTodos = v) := by
  refine ⟨fun _ => rfl, fun _ => rfl, ?_, ?_, ?_, ?_⟩
  · intro s e p hp; simp [loadLocalNotes, hp]
  · intro s e p hp; simp [loadLocalTodos, hp]
  · intro s v p hp; simp [loadLocalNotes, hp]
  · intro s v p hp; simp [loadLocalTodos, hp]

/-- Witness for C9 at a concrete malformed stored string and at an
absent key. -/
theorem C9_local_load_never_throws_witness :
    loadLocalNotes (some "not json")
      (fun _ => Except.error "SyntaxError") = [] ∧
    loadLocalTodos none (fun _ => Except.error "SyntaxError") = [] :=
  ⟨C9_local_load_never_throws.2.2.1 "not json" "SyntaxError" _ rfl,
   C9_local_load_never_throws.2.1 _⟩

/-- Claim C10: remote bulk loads reset the fields the upsert payload
omits: every note loaded from the remote store has `attachments = []`
and every todo loaded from the remote store has `linkedNoteIds = []`,
whatever the in-memory value was; consequently a remote save-then-reload
cycle maps a record to itself with those fields emptied. -/
theorem C10_remote_load_resets_omitted_fields :
    (∀ row : NoteRow, (noteOfRow row).attachments = []) ∧
    (∀ row : TodoRow, (todoOfRow row).linkedNoteIds = []) ∧
    (∀ userId store,
      (loadRemoteNotes userId store).all
        (fun n => n.attachments.isEmpty) = true) ∧
    (∀ userId store,
      (loadRemoteTodos userId store).all
        (fun t => t.linkedNoteIds.isEmpty) = true) ∧
    (∀ userId n, noteOfRow (noteUpsertPayload userId n) =
      { n with attachments := [] }) ∧
    (∀ userId t, todoOfRow (todoUpsertPayload userId t) =
      { t with linkedNoteIds := [] }) := by
  refine ⟨fun _ => rfl, fun _ => rfl, ?_, ?_, fun _ _ => rfl,
    fun _ _ => rfl⟩
  · intro userId store
    rw [List.all_eq_true]
    intro n hn
    rcases List.mem_map.mp hn with ⟨row, _, rfl⟩
    rfl
  · intro userId store
    rw [List.all_eq_true]
    intro t ht
    rcases List.mem_map.mp ht with ⟨row, _, rfl⟩
    rfl

/-- Claim C7: after `deleteGroup(g)`, `g` is gone from the groups
collection and from every todo's `groupIds`; every todo keeps all its
other fields unchanged (referential cleanup, not cascade-delete). -/
theorem C7_group_cascade (groupId : String) (groups : List TodoGroup)
    (todos : List Todo) :
    (deleteGroupGroupsUpdater groupId groups).all
      (fun g => g.id != groupId) = true ∧
    (deleteGroupTodosUpdater groupId todos).all
      (fun t => !(t.groupIds.contains groupId)) = true ∧
    (deleteGroupTodosUpdater groupId todos).map
        (fun t => (t.id, t.title, t.completed, t.createdAt, t.updatedAt,
          t.linkedNoteIds, t.deletedAt, t.tags)) =
      todos.map
        (fun t => (t.id, t.title, t.completed, t.createdAt, t.updatedAt,
          t.linkedNoteIds, t.deletedAt, t.tags)) ∧
    (deleteGroupTodosUpdater groupId todos).map (fun t => t.groupIds) =
      todos.map (fun t => t.groupIds.filter (fun id => id != groupId)) := by
  refine ⟨?_, ?_, ?_, ?_⟩
  · rw [List.all_eq_true]
    intro g hg
    exact (List.mem_filter.mp hg).2
  · rw [List.all_eq_true]
    intro t ht
    rcases List.mem_map.mp ht with ⟨t0, _, rfl⟩
    simp [removeGroupFromTodo, contains_filter_ne]
  · simp [deleteGroupTodosUpdater, removeGroupFromTodo, List.map_map]
  · simp [deleteGroupTodosUpdater, removeGroupFromTodo, List.map_map]

/-- Witness for C7 at a concrete group and todo list. -/
theorem C7_group_cascade_witness :
    (deleteGroupTodosUpdater "g1"
      [{ sampleTodo with groupIds := ["g1", "g2"] }]).all
      (fun t => !(t.groupIds.contains "g1")) = true :=
  (C7_group_cascade "g1" []
    [{ sampleTodo with groupIds := ["g1", "g2"] }]).2.1

/-- Claim C2 counterexample: `deleteTodo` (TodoApp.tsx 1250-1262) sets
`deletedAt` but does NOT bump `updatedAt`: soft-deleting the concrete
todo with `updatedAt = 1000` at time 2000 leaves `updatedAt = 1000`, so
`updatedAt` does not strictly increase as the claim requires; the
restore step likewise leaves it untouched, and the round trip returns
the record unchanged in every field. -/
theorem C2_counterexample :
    (deleteTodoUpdater "t1" 2000 [sampleTodo]).map Todo.updatedAt =
      [1000] ∧
    sampleTodo.updatedAt = 1000 ∧
    ¬ (sampleTodo.updatedAt < 1000) ∧
    restoreTodoUpdater "t1" (deleteTodoUpdater "t1" 2000 [sampleTodo]) =
      [sampleTodo] := by
  refine ⟨by decide, rfl, by decide, by decide⟩

/-- Claim C2 as amended: `softDelete(id)` then `restore(id)` composes to
exactly the clear-`deletedAt` map, every other field — `updatedAt`
included — unchanged at both steps; in particular on a collection of
active records the round trip is the identity. -/
theorem C2_softdelete_roundtrip (todos : List Todo) (id : String)
    (now : Nat) :
    restoreTodoUpdater id (deleteTodoUpdater id now todos) =
      restoreTodoUpdater id todos ∧
    (deleteTodoUpdater id now todos).map Todo.updatedAt =
      todos.map Todo.updatedAt ∧
    (restoreTodoUpdater id todos).map Todo.updatedAt =
      todos.map Todo.updatedAt ∧
    (todos.all (fun t => t.deletedAt == none) = true →
      restoreTodoUpdater id (deleteTodoUpdater id now todos) = todos) := by
  refine ⟨?_, ?_, ?_, ?_⟩
  · unfold deleteTodoUpdater restoreTodoUpdater
    rw [List.map_map]
    apply List.map_congr_left
    intro a _
    by_cases h : a.id = id <;> simp [h]
  · unfold deleteTodoUpdater
    rw [List.map_map]
    apply List.map_congr_left
    intro a _
    by_cases h : a.id = id <;> simp [h]
  · unfold restoreTodoUpdater
    rw [List.map_map]
    apply List.map_congr_left
    intro a _
    by_cases h : a.id = id <;> simp [h]
  · intro hall
    unfold deleteTodoUpdater restoreTodoUpdater
    rw [List.map_map]
    have hpt : ∀ a ∈ todos,
        ((fun todo =>
            if todo.id == id then { todo with deletedAt := none }
            else todo) ∘
          (fun todo =>
            if todo.id == id then { todo with deletedAt := some now }
            else todo)) a = a := by
      intro a ha
      have hdel : a.deletedAt = none := by
        have := (List.all_eq_true.mp hall) a ha
        simpa using this
      by_cases h : a.id = id
      · cases a
        simp_all
      · simp [h]
    rw [List.map_congr_left hpt]
    simp

/-- Witness for C2's amended theorem on the concrete active todo. -/
theorem C2_softdelete_roundtrip_witness :
    restoreTodoUpdater "t1" (deleteTodoUpdater "t1" 2000
      [sampleTodo, sampleTodo2]) = [sampleTodo, sampleTodo2] :=
  (C2_softdelete_roundtrip [sampleTodo, sampleTodo2] "t1" 2000).2.2.2
    (by decide)

/-- Claim C4, evaluated at the failing input: two back-to-back `setTodos`
calls in the same event-loop tick, the first appending `sampleTodo` and
the second appending `sampleTodo2`, starting from the empty collection.
Because `setTodos` applies the updater to the `todos` value captured at
the last render (use-data-sync.ts line 469) and replaces the state cell
non-functionally (line 472), the second call overwrites the first: the
final state is `[sampleTodo2]` and the first mutation is lost, contrary
to the claim that each updater observes the preceding mutation.  With a
re-render between the calls the two mutations do compose. -/
theorem C4_same_tick_mutations_lose_first :
    (setTodosCall
      (setTodosCall { state := [], rendered := [] }
        (fun c => c ++ [sampleTodo]))
      (fun c => c ++ [sampleTodo2])).state = [sampleTodo2] ∧
    ¬ sampleTodo ∈ (setTodosCall
      (setTodosCall { state := [], rendered := [] }
        (fun c => c ++ [sampleTodo]))
      (fun c => c ++ [sampleTodo2])).state ∧
    (setTodosCall
      (rerenderTodos (setTodosCall { state := [], rendered := [] }
        (fun c => c ++ [sampleTodo])))
      (fun c => c ++ [sampleTodo2])).state =
      [sampleTodo, sampleTodo2] := by
  refine ⟨rfl, ?_, rfl⟩
  decide

/-- Claim C3 counterexample: `deleteWorkflow` (use-data-sync.ts lines
792-827) removes the workflow from in-memory state optimistically BEFORE
the remote delete request; with the remote delete failing, the record is
already absent from the in-memory collection at that point, so the
optimistic removal is not prevented (the code then repairs the state by
refetching from the server). -/
theorem C3_counterexample :
    (deleteWorkflowRemote false "u" [sampleWorkflowRow] [sampleWorkflow]
      "w1").afterOptimistic = [] ∧
    (deleteWorkflowRemote false "u" [sampleWorkflowRow] [sampleWorkflow]
      "w1").toastError = true ∧
    (deleteWorkflowRemote false "u" [sampleWorkflowRow] [sampleWorkflow]
      "w1").store = [sampleWorkflowRow] ∧
    (deleteWorkflowRemote false "u" [sampleWorkflowRow] [sampleWorkflow]
      "w1").final = [sampleWorkflow] := by
  refine ⟨by decide, rfl, by decide, by decide⟩

/-- Claim C3 as amended: the todos purge
(`permanentlyDeleteTodo`, TodoApp.tsx 1273-1299) is conservative exactly
as claimed — a failed remote delete leaves the in-memory collection and
the remote table untouched, and only a successful delete removes the
record — while the workflows delete (`deleteWorkflow`) instead removes
the record optimistically before the remote call and, when the remote
delete fails, restores in-memory state by refetching the remote
collection. -/
theorem C3_purge_failure_semantics (uid : String) (store : List TodoRow)
    (todos : List Todo) (id : String) (wstore : List WorkflowRow)
    (workflows : List Workflow) (wid : String) :
    (permanentlyDeleteTodo false (some uid) store todos id).1 = todos ∧
    (permanentlyDeleteTodo false (some uid) store todos id).2.1 = store ∧
    (permanentlyDeleteTodo false (some uid) store todos id).2.2 = true ∧
    (permanentlyDeleteTodo true (some uid) store todos id).1 =
      todos.filter (fun t => t.id != id) ∧
    (deleteWorkflowRemote false uid wstore workflows wid).afterOptimistic =
      workflows.filter (fun w => w.id != wid) ∧
    (deleteWorkflowRemote false uid wstore workflows wid).store = wstore ∧
    (deleteWorkflowRemote false uid wstore workflows wid).final =
      loadRemoteWorkflows uid wstore ∧
    (deleteWorkflowRemote true uid wstore workflows wid).final =
      workflows.filter (fun w => w.id != wid) :=
  ⟨rfl, rfl, rfl, rfl, rfl, rfl, rfl, rfl⟩

/-- Claim C8 counterexample: with every upsert failing, `setNotes`'s
persistence fails (`saveOk = false`, an error toast is shown) yet the
returned promise still resolves — the catch block at use-data-sync.ts
lines 365-368 logs and toasts without rethrowing, so an awaiting caller
cannot observe the failure, contrary to the claim that the promise
rejects with the adapter's error. -/
theorem C8_counterexample :
    (setNotesRemote (fun _ => true) "u" [] []
      (fun _ => [sampleNote])).saveOk = false ∧
    (setNotesRemote (fun _ => true) "u" [] []
      (fun _ => [sampleNote])).toastError = true ∧
    (setNotesRemote (fun _ => true) "u" [] []
      (fun _ => [sampleNote])).promiseResolved = true := by
  refine ⟨rfl, rfl, rfl⟩

/-- Claim C8 as amended: every `mutate` call's promise resolves once the
persistence attempt has completed, whether or not persistence succeeded;
an adapter failure is caught, logged and surfaced as an error toast
(and, in local mode, a quota failure likewise), never as a rejection,
and the in-memory collection keeps the post-mutation value in every
case. -/
theorem C8_mutate_promise_always_resolves (fails : Nat → Bool)
    (userId : String) (nstore : List NoteRow) (tstore : List TodoRow)
    (closureNotes : List Note) (closureTodos : List Todo)
    (nupd : List Note → List Note) (tupd : List Todo → List Todo)
    (quotaFails : Bool) (serializeNotes : List Note → String)
    (stored : Option String) :
    (setNotesRemote fails userId nstore closureNotes nupd).promiseResolved
      = true ∧
    (setNotesRemote fails userId nstore closureNotes nupd).memory =
      nupd closureNotes ∧
    ((setNotesRemote fails userId nstore closureNotes nupd).saveOk = false →
      (setNotesRemote fails userId nstore closureNotes nupd).toastError
        = true) ∧
    (setTodosRemote fails userId tstore closureTodos tupd).promiseResolved
      = true ∧
    (setTodosRemote fails userId tstore closureTodos tupd).memory =
      tupd closureTodos ∧
    ((setTodosRemote fails userId tstore closureTodos tupd).saveOk = false →
      (setTodosRemote fails userId tstore closureTodos tupd).toastError
        = true) ∧
    (setNotesLocal quotaFails serializeNotes stored closureNotes
      nupd).promiseResolved = true ∧
    (setNotesLocal quotaFails serializeNotes stored closureNotes
      nupd).memory = nupd closureNotes ∧
    (setNotesLocal quotaFails serializeNotes stored closureNotes
      nupd).toastError = quotaFails := by
  refine ⟨rfl, rfl, ?_, rfl, rfl, ?_, rfl, rfl, rfl⟩
  · intro h
    simp [setNotesRemote] at h ⊢
    exact h
  · intro h
    simp [setTodosRemote] at h ⊢
    exact h

/-- Witness for C8's amended theorem at a concrete failing schedule. -/
theorem C8_mutate_promise_always_resolves_witness :
    (setNotesRemote (fun k => k == 0) "u" [] []
      (fun _ => [sampleNote])).toastError = true :=
  (C8_mutate_promise_always_resolves (fun k => k == 0) "u" [] [] [] []
    (fun _ => [sampleNote]) (fun _ => []) false (fun _ => "") none).2.2.1
    (by decide)

/-- Claim C1 counterexample: the notes controller, READY in local mode
with `L = [sampleNote]`, does NOT reload when the identity becomes
authenticated: the load effect re-runs (its dependencies include
`user?.id`) but early-returns on the `hasLoaded` guard, so the state is
unchanged — no transition through LOADING, no remote load — and the
READY collection stays `L`, which differs from the remote collection
`R = [noteOfRow sampleNoteRow]`. -/
theorem C1_counterexample :
    notesLoadEffect (some "u") [sampleNote] [sampleNoteRow]
        (notesLoadEffect none [sampleNote] [sampleNoteRow]
          initialNotesHookState) =
      notesLoadEffect none [sampleNote] [sampleNoteRow]
        initialNotesHookState ∧
    (notesLoadEffect none [sampleNote] [sampleNoteRow]
        initialNotesHookState).notes = [sampleNote] ∧
    loadRemoteNotes "u" [sampleNoteRow] = [noteOfRow sampleNoteRow] ∧
    [sampleNote] ≠ loadRemoteNotes "u" [sampleNoteRow] := by
  refine ⟨by decide, rfl, by decide, by decide⟩

/-- Claim C1 as amended: only the workflows controller hydrates on
sign-in.  Starting READY in local mode with records `L`, when the
identity becomes authenticated the workflows hook's second effect
performs exactly one remote load (re-running either effect afterwards is
a no-op) and its READY collection equals the remote collection — not
`L`, and not a merge — though without raising the loading flag during
the hydration load.  The notes controller (and the identically-shaped
todos and groups controllers) performs no new load at all: the
`hasLoaded` guard suppresses it and the local records are kept. -/
theorem C1_mode_switch_hydration (uid : String)
    (localNotes : List Note) (noteStore : List NoteRow)
    (localWorkflows : List Workflow) (wfStore : List WorkflowRow) :
    (workflowsHydrateEffect (some uid) wfStore
        (workflowsLoadEffect none localWorkflows wfStore
          initialWorkflowsHookState)).workflows =
      loadRemoteWorkflows uid wfStore ∧
    (workflowsHydrateEffect (some uid) wfStore
        (workflowsLoadEffect none localWorkflows wfStore
          initialWorkflowsHookState)).loadedMode =
      LoadedMode.remoteMode ∧
    workflowsHydrateEffect (some uid) wfStore
        (workflowsHydrateEffect (some uid) wfStore
          (workflowsLoadEffect none localWorkflows wfStore
            initialWorkflowsHookState)) =
      workflowsHydrateEffect (some uid) wfStore
        (workflowsLoadEffect none localWorkflows wfStore
          initialWorkflowsHookState) ∧
    workflowsLoadEffect (some uid) localWorkflows wfStore
        (workflowsHydrateEffect (some uid) wfStore
          (workflowsLoadEffect none localWorkflows wfStore
            initialWorkflowsHookState)) =
      workflowsHydrateEffect (some uid) wfStore
        (workflowsLoadEffect none localWorkflows wfStore
          initialWorkflowsHookState) ∧
    notesLoadEffect (some uid) localNotes noteStore
        (notesLoadEffect none localNotes noteStore
          initialNotesHookState) =
      notesLoadEffect none localNotes noteStore initialNotesHookState ∧
    (notesLoadEffect none localNotes noteStore
        initialNotesHookState).notes = localNotes := by
  refine ⟨rfl, rfl, rfl, rfl, rfl, rfl⟩

/-- Claim C6: persisting after a mutation in remote mode issues one
upsert per record currently in memory (no diffing — every record is
re-sent), and when the k-th upsert fails the loop stops after that call
(k+1 calls issued, none for the remaining records), the upserts already
applied are not rolled back, and the in-memory collection keeps the
post-mutation value in every case.  Stated for both `setNotes` and
`setTodos`. -/
theorem C6_persist_upserts_every_record (fails : Nat → Bool)
    (userId : String) (nstore : List NoteRow) (tstore : List TodoRow)
    (closureNotes : List Note) (closureTodos : List Todo)
    (nupd : List Note → List Note) (tupd : List Todo → List Todo) :
    (setNotesRemote fails userId nstore closureNotes nupd).memory =
      nupd closureNotes ∧
    ((∀ i, i < (nupd closureNotes).length → fails i = false) →
      (setNotesRemote fails userId nstore closureNotes nupd).sent =
        (nupd closureNotes).length ∧
      (setNotesRemote fails userId nstore closureNotes nupd).saveOk
        = true ∧
      (setNotesRemote fails userId nstore closureNotes nupd).store =
        ((nupd closureNotes).map (noteUpsertPayload userId)).foldl
          (upsertBy NoteRow.id) nstore) ∧
    (∀ j, j < (nupd closureNotes).length → fails j = true →
      (∀ i, i < j → fails i = false) →
      (setNotesRemote fails userId nstore closureNotes nupd).sent =
        j + 1 ∧
      (setNotesRemote fails userId nstore closureNotes nupd).saveOk
        = false ∧
      (setNotesRemote fails userId nstore closureNotes nupd).store =
        (((nupd closureNotes).map (noteUpsertPayload userId)).take
          j).foldl (upsertBy NoteRow.id) nstore) ∧
    (setTodosRemote fails userId tstore closureTodos tupd).memory =
      tupd closureTodos ∧
    ((∀ i, i < (tupd closureTodos).length → fails i = false) →
      (setTodosRemote fails userId tstore closureTodos tupd).sent =
        (tupd closureTodos).length ∧
      (setTodosRemote fails userId tstore closureTodos tupd).saveOk
        = true ∧
      (setTodosRemote fails userId tstore closureTodos tupd).store =
        ((tupd closureTodos).map (todoUpsertPayload userId)).foldl
          (upsertBy TodoRow.id) tstore) ∧
    (∀ j, j < (tupd closureTodos).length → fails j = true →
      (∀ i, i < j → fails i = false) →
      (setTodosRemote fails userId tstore closureTodos tupd).sent =
        j + 1 ∧
      (setTodosRemote fails userId tstore closureTodos tupd).saveOk
        = false ∧
      (setTodosRemote fails userId tstore closureTodos tupd).store =
        (((tupd closureTodos).map (todoUpsertPayload userId)).take
          j).foldl (upsertBy TodoRow.id) tstore) := by
  refine ⟨rfl, ?_, ?_, rfl, ?_, ?_⟩
  · intro hok
    have h := upsertLoop_ok NoteRow.id fails
      ((nupd closureNotes).map (noteUpsertPayload userId)) 0 nstore
      (by
        intro i hi
        rw [Nat.zero_add]
        exact hok i (by simpa using hi))
    refine ⟨?_, ?_, ?_⟩ <;> simp [setNotesRemote, h]
  · intro j hj hfail hbefore
    have h := upsertLoop_firstFail NoteRow.id fails
      ((nupd closureNotes).map (noteUpsertPayload userId)) j 0 nstore
      (by simpa using hj)
      (by rwa [Nat.zero_add])
      (by
        intro i hi
        rw [Nat.zero_add]
        exact hbefore i hi)
    refine ⟨?_, ?_, ?_⟩ <;> simp [setNotesRemote, h]
  · intro hok
    have h := upsertLoop_ok TodoRow.id fails
      ((tupd closureTodos).map (todoUpsertPayload userId)) 0 tstore
      (by
        intro i hi
        rw [Nat.zero_add]
        exact hok i (by simpa using hi))
    refine ⟨?_, ?_, ?_⟩ <;> simp [setTodosRemote, h]
  · intro j hj hfail hbefore
    have h := upsertLoop_firstFail TodoRow.id fails
      ((tupd closureTodos).map (todoUpsertPayload userId)) j 0 tstore
      (by simpa using hj)
      (by rwa [Nat.zero_add])
      (by
        intro i hi
        rw [Nat.zero_add]
        exact hbefore i hi)
    refine ⟨?_, ?_, ?_⟩ <;> simp [setTodosRemote, h]

/-- Witness for C6: three notes with the second upsert failing — exactly
two upserts are issued, persistence reports failure, the first upsert is
kept (no rollback) and memory keeps all three notes. -/
theorem C6_persist_upserts_every_record_witness :
    (setNotesRemote (fun k => k == 1) "u" [] []
      (fun _ => [sampleNote, { sampleNote with id := "n2" },
        { sampleNote with id := "n3" }])).sent = 2 ∧
    (setNotesRemote (fun k => k == 1) "u" [] []
      (fun _ => [sampleNote, { sampleNote with id := "n2" },
        { sampleNote with id := "n3" }])).saveOk = false := by
  have h := (C6_persist_upserts_every_record (fun k => k == 1) "u" [] []
    [] [] (fun _ => [sampleNote, { sampleNote with id := "n2" },
      { sampleNote with id := "n3" }]) (fun _ => [])).2.2.1 1
    (by decide) (by decide)
    (by
      intro i hi
      have hz : i = 0 := by omega
      subst hz
      rfl)
  exact ⟨h.1, h.2.1⟩

/-- Claim C5 counterexample: in remote mode, persist the in-memory
collection `[sampleNote]` (which carries one attachment) with every
upsert succeeding, then refetch.  The reloaded collection differs
per-field from the in-memory state at mutation time: the upsert payload
omits `attachments` and `loadRemoteNotes` rebuilds every note with
`attachments = []`. -/
theorem C5_counterexample :
    (setNotesRemote (fun _ => false) "u" [] []
      (fun _ => [sampleNote])).saveOk = true ∧
    (setNotesRemote (fun _ => false) "u" [] []
      (fun _ => [sampleNote])).memory = [sampleNote] ∧
    loadRemoteNotes "u" (setNotesRemote (fun _ => false) "u" [] []
        (fun _ => [sampleNote])).store ≠
      (setNotesRemote (fun _ => false) "u" [] []
        (fun _ => [sampleNote])).memory := by
  refine ⟨by decide, by decide, by decide⟩

/-- Claim C5 as amended: refetch immediately after a successful
persistence returns the persisted in-memory collection exactly in local
mode (same records, same fields, same order); in remote mode it returns
exactly the persisted records with the omitted fields emptied —
`attachments` for notes, `linkedNoteIds` for todos — as a set: a record
is in the reloaded collection iff it is one of the in-memory records
with that field emptied, record order now being `updated_at`-descending
server order.  (Hypotheses: the mutated collection has no duplicate ids,
and the pre-existing remote rows are the owner's own rows whose ids all
occur in the mutated collection, as after a normal load.) -/
theorem C5_refetch_after_mutate :
    (∀ (serializeNotes : List Note → String) parseNotes stored
        closureNotes nupd,
      parseNotes (serializeNotes (nupd closureNotes)) =
        Except.ok (nupd closureNotes) →
      loadLocalNotes
        (setNotesLocal false serializeNotes stored closureNotes
          nupd).stored parseNotes =
        (setNotesLocal false serializeNotes stored closureNotes
          nupd).memory) ∧
    (∀ (serializeTodos : List Todo → String) parseTodos stored
        closureTodos tupd,
      parseTodos (serializeTodos (tupd closureTodos)) =
        Except.ok (tupd closureTodos) →
      loadLocalTodos
        (setTodosLocal false serializeTodos stored closureTodos
          tupd).stored parseTodos =
        (setTodosLocal false serializeTodos stored closureTodos
          tupd).memory) ∧
    (∀ (userId : String) (nstore : List NoteRow) closureNotes nupd,
      ((nupd closureNotes).map Note.id).Nodup →
      (∀ r, r ∈ nstore → r.user_id = userId ∧
        r.id ∈ (nupd closureNotes).map Note.id) →
      ∀ n, n ∈ loadRemoteNotes userId
          (setNotesRemote (fun _ => false) userId nstore closureNotes
            nupd).store ↔
        ∃ m, m ∈ nupd closureNotes ∧ n = { m with attachments := [] }) ∧
    (∀ (userId : String) (tstore : List TodoRow) closureTodos tupd,
      ((tupd closureTodos).map Todo.id).Nodup →
      (∀ r, r ∈ tstore → r.user_id = userId ∧
        r.id ∈ (tupd closureTodos).map Todo.id) →
      ∀ t, t ∈ loadRemoteTodos userId
          (setTodosRemote (fun _ => false) userId tstore closureTodos
            tupd).store ↔
        ∃ m, m ∈ tupd closureTodos ∧
          t = { m with linkedNoteIds := [] }) := by
  refine ⟨?_, ?_, ?_, ?_⟩
  · intro serializeNotes parseNotes stored closureNotes nupd hrt
    simp [setNotesLocal, loadLocalNotes, hrt]
  · intro serializeTodos parseTodos stored closureTodos tupd hrt
    simp [setTodosLocal, loadLocalTodos, hrt]
  · intro userId nstore closureNotes nupd hnd hscope n
    have hstore : (setNotesRemote (fun _ => false) userId nstore
        closureNotes nupd).store =
        ((nupd closureNotes).map (noteUpsertPayload userId)).foldl
          (upsertBy NoteRow.id) nstore := by
      have h := upsertLoop_ok NoteRow.id (fun _ => false)
        ((nupd closureNotes).map (noteUpsertPayload userId)) 0 nstore
        (fun _ _ => rfl)
      simp [setNotesRemote, h]
    rw [hstore]
    have hids : (((nupd closureNotes).map
        (noteUpsertPayload userId)).map NoteRow.id) =
        (nupd closureNotes).map Note.id := by
      rw [List.map_map]
      rfl
    have hmem : ∀ row, (row ∈ ((nupd closureNotes).map
        (noteUpsertPayload userId)).foldl (upsertBy NoteRow.id) nstore ↔
        row ∈ (nupd closureNotes).map (noteUpsertPayload userId)) := by
      intro row
      rw [mem_foldl_upsertBy NoteRow.id _ _ _ (by rw [hids]; exact hnd)]
      constructor
      · rintro (h | ⟨hrow, hnin⟩)
        · exact h
        · exact absurd (by rw [hids]; exact (hscope row hrow).2) hnin
      · exact Or.inl
    unfold loadRemoteNotes
    simp only [List.mem_map, mem_sortByUpdatedDesc, List.mem_filter]
    constructor
    · rintro ⟨row, ⟨hrowS, _⟩, rfl⟩
      rcases List.mem_map.mp ((hmem row).mp hrowS) with ⟨m, hm, rfl⟩
      exact ⟨m, hm, rfl⟩
    · rintro ⟨m, hm, rfl⟩
      refine ⟨noteUpsertPayload userId m, ⟨?_, ?_⟩, rfl⟩
      · exact (hmem _).mpr (List.mem_map_of_mem _ hm)
      · simp [noteUpsertPayload]
  · intro userId tstore closureTodos tupd hnd hscope t
    have hstore : (setTodosRemote (fun _ => false) userId tstore
        closureTodos tupd).store =
        ((tupd closureTodos).map (todoUpsertPayload userId)).foldl
          (upsertBy TodoRow.id) tstore := by
      have h := upsertLoop_ok TodoRow.id (fun _ => false)
        ((tupd closureTodos).map (todoUpsertPayload userId)) 0 tstore
        (fun _ _ => rfl)
      simp [setTodosRemote, h]
    rw [hstore]
    have hids : (((tupd closureTodos).map
        (todoUpsertPayload userId)).map TodoRow.id) =
        (tupd closureTodos).map Todo.id := by
      rw [List.map_map]
      rfl
    have hmem : ∀ row, (row ∈ ((tupd closureTodos).map
        (todoUpsertPayload userId)).foldl (upsertBy TodoRow.id) tstore ↔
        row ∈ (tupd closureTodos).map (todoUpsertPayload userId)) := by
      intro row
      rw [mem_foldl_upsertBy TodoRow.id _ _ _ (by rw [hids]; exact hnd)]
      constructor
      · rintro (h | ⟨hrow, hnin⟩)
        · exact h
        · exact absurd (by rw [hids]; exact (hscope row hrow).2) hnin
      · exact Or.inl
    unfold loadRemoteTodos
    simp only [List.mem_map, mem_sortByUpdatedDesc, List.mem_filter]
    constructor
    · rintro ⟨row, ⟨hrowS, _⟩, rfl⟩
      rcases List.mem_map.mp ((hmem row).mp hrowS) with ⟨m, hm, rfl⟩
      exact ⟨m, hm, rfl⟩
    · rintro ⟨m, hm, rfl⟩
      refine ⟨todoUpsertPayload userId m, ⟨?_, ?_⟩, rfl⟩
      · exact (hmem _).mpr (List.mem_map_of_mem _ hm)
      · simp [todoUpsertPayload]

/-- Witness for C5's amended theorem: persisting `[sampleNote]` into an
empty remote table and refetching yields exactly the attachment-stripped
note. -/
theorem C5_refetch_after_mutate_witness :
    { sampleNote with attachments := [] } ∈
      loadRemoteNotes "u" (setNotesRemote (fun _ => false) "u" [] []
        (fun _ => [sampleNote])).store := by
  have h := C5_refetch_after_mutate.2.2.1 "u" [] []
    (fun _ => [sampleNote]) (by decide)
    (by intro r hr; exact absurd hr (List.not_mem_nil r))
  exact (h { sampleNote with attachments := [] }).mpr
    ⟨sampleNote, by decide, rfl⟩
